import Mathlib

/-!
Verification development for the `miao` control panel (`src/main.rs`):
a shallow embedding of its process supervisor, config-synthesis pipeline,
subscription translation, version comparison and self-upgrade logic,
together with theorems settling the specification claims.

External collaborators (the HTTP client, the serde parsers, the OS process
table) are modelled as explicit parameters or abstract state.
-/

set_option autoImplicit false

namespace Miao

/-! ## JSON values

`serde_json::Value` is modelled by the inductive `Json`.  Objects are kept as
association lists in construction order; `serde_json`'s `Map` is a `BTreeMap`,
so serialization sorts the keys (see `sortKeys` below), while field lookup is
by key and thus insensitive to the representation order. -/

inductive Json where
  | null
  | bool (b : Bool)
  | num (n : Nat)
  | str (s : String)
  | arr (elems : List Json)
  | obj (fields : List (String × Json))

def lookupField (k : String) : List (String × Json) → Option Json
  | [] => none
  | (q, v) :: rest => if q = k then some v else lookupField k rest

/-- `Value::get(key)` on an object; `None` on every other variant. -/
def Json.getField (j : Json) (k : String) : Option Json :=
  match j with
  | .obj fields => lookupField k fields
  | _ => none

/-- `Value::as_str`. -/
def Json.asStr : Json → Option String
  | .str s => some s
  | _ => none

/-- `get_mut(key)` followed by an in-place update: rewrite the value stored at
`k` (objects only; other variants and absent keys are left unchanged). -/
def Json.mapField (k : String) (f : Json → Json) : Json → Json
  | .obj fields => .obj (fields.map (fun p => if p.1 = k then (p.1, f p.2) else p))
  | j => j

/-- `value[0]` update: rewrite the first element of an array. -/
def Json.mapHead (f : Json → Json) : Json → Json
  | .arr (x :: xs) => .arr (f x :: xs)
  | j => j

/-- `Vec::extend` on an array value. -/
def Json.appendArr (extra : List Json) : Json → Json
  | .arr xs => .arr (xs ++ extra)
  | j => j

/-! ### Serialization (`serde_json::to_string`)

Compact output; object keys are emitted in sorted order, matching the
`BTreeMap` backing `serde_json::Value`. -/

def escapeChar (c : Char) : String :=
  if c = '"' then "\\\""
  else if c = '\\' then "\\\\"
  else if c = Char.ofNat 10 then "\\n"
  else if c = Char.ofNat 13 then "\\r"
  else if c = Char.ofNat 9 then "\\t"
  else if c.toNat < 32 then "\\u0000"
  else String.singleton c

def escapeString (s : String) : String :=
  s.toList.foldl (fun acc c => acc ++ escapeChar c) ""

def quoteJson (s : String) : String :=
  "\"" ++ escapeString s ++ "\""

/-- Ascending insertion of a field into a key-sorted field list. -/
def insertField (p : String × Json) : List (String × Json) → List (String × Json)
  | [] => [p]
  | q :: rest => if p.1 ≤ q.1 then p :: q :: rest else q :: insertField p rest

def sortFields (l : List (String × Json)) : List (String × Json) :=
  l.foldr insertField []

mutual

/-- Recursively sort every object's keys, the storage order of a
`serde_json::Value` built from the same data. -/
def sortKeys : Json → Json
  | .null => .null
  | .bool b => .bool b
  | .num n => .num n
  | .str s => .str s
  | .arr xs => .arr (sortKeysList xs)
  | .obj fields => .obj (sortFields (sortKeysFields fields))

def sortKeysList : List Json → List Json
  | [] => []
  | x :: xs => sortKeys x :: sortKeysList xs

def sortKeysFields : List (String × Json) → List (String × Json)
  | [] => []
  | (k, v) :: rest => (k, sortKeys v) :: sortKeysFields rest

end

mutual

def toJsonString : Json → String
  | .null => "null"
  | .bool true => "true"
  | .bool false => "false"
  | .num n => toString n
  | .str s => quoteJson s
  | .arr xs => "[" ++ jsonArrBody xs ++ "]"
  | .obj fields => "\x7b" ++ jsonObjBody fields ++ "\x7d"

def jsonArrBody : List Json → String
  | [] => ""
  | [x] => toJsonString x
  | x :: y :: rest => toJsonString x ++ "," ++ jsonArrBody (y :: rest)

def jsonObjBody : List (String × Json) → String
  | [] => ""
  | [(k, v)] => quoteJson k ++ ":" ++ toJsonString v
  | (k, v) :: q :: rest => quoteJson k ++ ":" ++ toJsonString v ++ "," ++ jsonObjBody (q :: rest)

end

/-! ## Version comparison (`parse_version`, `is_newer_version`) -/

/-- `str::parse::<u32>()`: an optional leading `+`, then one or more ASCII
digits, value bounded by `u32::MAX`. -/
def parseU32 (cs0 : List Char) : Option Nat :=
  let cs := match cs0 with
    | '+' :: rest => rest
    | other => other
  if cs.isEmpty then none
  else if cs.all Char.isDigit then
    let v := cs.foldl (fun acc c => acc * 10 + (c.toNat - 48)) 0
    if v ≤ 4294967295 then some v else none
  else none

/-- Rust's `str::split('.')`: split on every dot, keeping empty pieces. -/
def splitDot : List Char → List (List Char)
  | [] => [[]]
  | c :: rest =>
    if c = '.' then [] :: splitDot rest
    else
      match splitDot rest with
      | h :: t => (c :: h) :: t
      | [] => [[c]]

/-- Parse a version string like `v0.6.10` into a comparable triple
(`parse_version` in the source): strip an optional leading `v`, split on
dots, require exactly three numeric components. -/
def parseVersion (v : String) : Option (Nat × Nat × Nat) :=
  let cs := match v.toList with
    | 'v' :: rest => rest
    | other => other
  match splitDot cs with
  | [a, b, c] =>
    match parseU32 a, parseU32 b, parseU32 c with
    | some x, some y, some z => some (x, y, z)
    | _, _, _ => none
  | _ => none

/-- Rust's derived lexicographic `<` on `(u32, u32, u32)`. -/
def versionLt (c l : Nat × Nat × Nat) : Bool :=
  decide (c.1 < l.1) ||
    (decide (c.1 = l.1) &&
      (decide (c.2.1 < l.2.1) ||
        (decide (c.2.1 = l.2.1) && decide (c.2.2 < l.2.2))))

/-- `is_newer_version(current, latest)`: true iff both parse and `latest`'s
triple is strictly greater. -/
def isNewerVersion (current latest : String) : Bool :=
  match parseVersion current, parseVersion latest with
  | some c, some l => versionLt c l
  | _, _ => false

/-! ## File system model

Files written by the program are an association list from path to byte
content (bytes as `String`).  `gen_config` is given an event trace so that
claims about *which* writes happen (and what a kill mid-write can leave
behind) are statable. -/

abbrev Fs := List (String × String)

def fsLookup (fs : Fs) (p : String) : Option String :=
  match fs with
  | [] => none
  | (q, c) :: rest => if q = p then some c else fsLookup rest p

def fsErase (fs : Fs) (p : String) : Fs :=
  match fs with
  | [] => []
  | (q, c) :: rest => if q = p then fsErase rest p else (q, c) :: fsErase rest p

/-- `fs::write`: create or truncate-and-replace. -/
def fsWrite (fs : Fs) (p c : String) : Fs :=
  (p, c) :: fsErase fs p

/-- `fs::remove_file` (missing files are a no-op here; error codes are
carried by the environment flags of the functions using it). -/
def fsRemove (fs : Fs) (p : String) : Fs :=
  fsErase fs p

/-- `fs::copy`: read `src`, write its bytes at `dst`. -/
def fsCopy (fs : Fs) (src dst : String) : Fs :=
  match fsLookup fs src with
  | some c => fsWrite fs dst c
  | none => fs

inductive FsEvent where
  | write (path : String) (content : String)
  | rename (src dst : String)
  | remove (path : String)
deriving DecidableEq

def applyEvent (fs : Fs) : FsEvent → Fs
  | .write p c => fsWrite fs p c
  | .rename src dst =>
    match fsLookup fs src with
    | some c => fsWrite (fsErase fs src) dst c
    | none => fs
  | .remove p => fsRemove fs p

def applyEvents (es : List FsEvent) (fs : Fs) : Fs :=
  es.foldl applyEvent fs

def listInits {α : Type} : List α → List (List α)
  | [] => [[]]
  | a :: as => [] :: (listInits as).map (a :: ·)

/-- States the disk can be in if the process dies while one event is in
flight: a plain write may leave any byte prefix of the content; rename and
remove are atomic. -/
def midStates (fs : Fs) : FsEvent → List Fs
  | .write p c => fs :: (listInits c.toList).map (fun l => fsWrite fs p (String.mk l))
  | e => [fs, applyEvent fs e]

/-- All disk states reachable when the process is killed at an arbitrary
point of an event trace. -/
def interruptedStates : List FsEvent → Fs → List Fs
  | [], fs => [fs]
  | e :: es, fs => midStates fs e ++ interruptedStates es (applyEvent fs e)

/-! ## Process supervisor (`SING_PROCESS`, `start_sing_internal`,
`stop_sing_internal`, `start_service`, `stop_service`)

The OS process table is a list of alive flags indexed by pid; the shared
`SING_PROCESS` mutex cell is `handle`.  `try_wait` is modelled as reading the
alive flag.  Suspensions (`sleep`) have no observable effect and are elided.
-/

structure World where
  procs : List Bool
  handle : Option Nat
deriving DecidableEq

/-- Count of sing-box processes the OS currently sees alive. -/
def aliveCount (w : World) : Nat :=
  w.procs.count true

/-- `proc.child.try_wait()` on the stored handle: is the supervised process
still running? -/
def handleAlive (w : World) : Bool :=
  match w.handle with
  | some pid => w.procs.getD pid false
  | none => false

/-- Environment for one `stop_sing_internal` call: whether the SIGTERM is
delivered and acted on within the 3 s poll window.  Signal errors are
swallowed in the source (`let _ = kill(..)`), and a still-alive child is
force-killed, so the flag cannot change the outcome — which is what claim C5
asserts. -/
structure StopEnv where
  sigtermWorks : Bool
deriving DecidableEq

/-- `stop_sing_internal`: graceful-then-forced termination; always ends with
the handle cleared. -/
def stopSing (env : StopEnv) (w : World) : World :=
  match w.handle with
  | some pid =>
    if w.procs.getD pid false then
      -- Either SIGTERM is honoured within the poll window
      -- (`env.sigtermWorks`), or the child is force-killed and awaited:
      -- both branches end with the child dead.
      { procs := w.procs.set pid false, handle := none }
    else
      { procs := w.procs, handle := none }
  | none => { procs := w.procs, handle := none }

inductive StartErr where
  | alreadyRunning
  | spawnFailed
  | immediateExit (code : Int)
  | clientBuildFailed
  | connectivityCheckFailed
deriving DecidableEq

/-- Environment for one `start_sing_internal` call: whether `spawn` succeeds,
whether the child exits during the 500 ms settle wait (and with which code),
whether the reqwest client builds, and the outcome of each connectivity-probe
attempt. -/
structure StartEnv where
  spawnOk : Bool
  immediateExit : Option Int
  clientOk : Bool
  probe : Nat → Bool
  stopEnv : StopEnv

/-- `start_sing_internal`.  Mirrors the source: refuse if the stored handle is
still alive; spawn; fail on immediate exit; store the handle; probe up to 3
times; on total probe failure call `stop_sing_internal` and fail. -/
def startSing (env : StartEnv) (w : World) : Except StartErr Unit × World :=
  if handleAlive w then (.error .alreadyRunning, w)
  else if !env.spawnOk then (.error .spawnFailed, w)
  else
    let pid := w.procs.length
    let w1 : World := { procs := w.procs ++ [true], handle := w.handle }
    match env.immediateExit with
    | some code =>
      (.error (.immediateExit code), { procs := w1.procs.set pid false, handle := w1.handle })
    | none =>
      let w2 : World := { procs := w1.procs, handle := some pid }
      if !env.clientOk then (.error .clientBuildFailed, w2)
      else if env.probe 1 || env.probe 2 || env.probe 3 then (.ok (), w2)
      else (.error .connectivityCheckFailed, stopSing env.stopEnv w2)

/-- `POST /api/service/start` (`start_service`): 400 if the stored handle is
alive, otherwise delegate to `start_sing_internal`; 200 on success, 500 on
failure.  Only the HTTP status is modelled beside the state. -/
def startService (env : StartEnv) (w : World) : Nat × World :=
  if handleAlive w then (400, w)
  else
    match startSing env w with
    | (.ok _, w') => (200, w')
    | (.error _, w') => (500, w')

/-- `POST /api/service/stop` (`stop_service`): unconditional
`stop_sing_internal`, always a 200 success response. -/
def stopService (env : StopEnv) (w : World) : Nat × World :=
  (200, stopSing env w)

/-! ## Self-upgrade (`upgrade`)

The synchronous part of `upgrade()` — everything up to the HTTP response —
over the abstract file system and process world.  Network, permission and
copy failures are environment flags; the deferred `exec` task spawned after
the response is outside the modelled return value. -/

structure GitHubAsset where
  name : String
  browserDownloadUrl : String
deriving DecidableEq

structure GitHubRelease where
  tagName : String
  assets : List GitHubAsset
deriving DecidableEq

inductive UpgradeResult where
  | failed (msg : String)
  | upToDate
  | upgraded (newVersion : String)
deriving DecidableEq

structure UpgradeEnv where
  clientOk : Bool
  release : Except String GitHubRelease
  currentVersion : String
  assetName : Option String
  download : Except String String
  writeTempOk : Bool
  chmodTempOk : Bool
  verifyRuns : Bool
  currentExe : Except String String
  stopEnv : StopEnv
  backupOk : Bool
  removeOldOk : Bool
  copyNewOk : Bool
  chmodNewOk : Bool

def tempPath : String := "/tmp/miao-new"

def upgrade (env : UpgradeEnv) (fs : Fs) (w : World) : UpgradeResult × Fs × World :=
  if !env.clientOk then (.failed "Failed to create HTTP client", fs, w) else
  match env.release with
  | .error e => (.failed ("Failed to fetch release info: " ++ e), fs, w)
  | .ok release =>
    let current := "v" ++ env.currentVersion
    if !isNewerVersion current release.tagName then (.upToDate, fs, w) else
    match env.assetName with
    | none => (.failed "Unsupported architecture", fs, w)
    | some assetName =>
      match release.assets.find? (fun a => a.name = assetName) with
      | none => (.failed "No binary found for current architecture", fs, w)
      | some _ =>
        match env.download with
        | .error e => (.failed ("Failed to download: " ++ e), fs, w)
        | .ok binaryData =>
          if !env.writeTempOk then (.failed "Failed to write temp file", fs, w) else
          let fs1 := fsWrite fs tempPath binaryData
          if !env.chmodTempOk then (.failed "Failed to set permissions", fs1, w) else
          if !env.verifyRuns then
            (.failed "New binary verification failed", fsRemove fs1 tempPath, w)
          else
          match env.currentExe with
          | .error e => (.failed ("Failed to get current exe path: " ++ e), fs1, w)
          | .ok exePath =>
            let w1 := stopSing env.stopEnv w
            let backupPath := exePath ++ ".bak"
            if !env.backupOk then (.failed "Failed to backup current binary", fs1, w1) else
            let fs2 := fsCopy fs1 exePath backupPath
            if !env.removeOldOk then (.failed "Failed to remove old binary", fs2, w1) else
            let fs3 := fsRemove fs2 exePath
            if !env.copyNewOk then
              (.failed "Failed to copy new binary", fsCopy fs3 backupPath exePath, w1)
            else
            let fs4 := fsCopy fs3 tempPath exePath
            if !env.chmodNewOk then
              (.failed "Failed to set permissions", fsCopy (fsRemove fs4 exePath) backupPath exePath, w1)
            else
              (.upgraded release.tagName, fsRemove fs4 tempPath, w1)

/-! ## Subscription translation (`fetch_sub`, lines 1355-1469)

A parsed clash-YAML proxy entry, restricted to the keys `fetch_sub` actually
reads; missing keys are `none` and the source's `unwrap_or` defaults are
applied at use sites. -/

structure YamlNode where
  typ : Option String
  name : Option String
  server : Option String
  port : Option Nat
  password : Option String
  sni : Option String
  cipher : Option String
  skipCertVerify : Option Bool
deriving DecidableEq

def YamlNode.nodeName (n : YamlNode) : String := n.name.getD ""

/-- Serialization of the `Tls` struct: `enabled`, optional `server_name`
(skipped when absent), `insecure`. -/
def tlsJson (serverName : Option String) (insecure : Bool) : Json :=
  .obj ([("enabled", .bool true)]
    ++ (match serverName with
        | some s => [("server_name", Json.str s)]
        | none => [])
    ++ [("insecure", .bool insecure)])

/-- The `Hysteria2` outbound built from a feed entry (`up_mbps`/`down_mbps`
fixed, TLS enabled with `insecure: true`). -/
def hysteria2Outbound (n : YamlNode) : Json :=
  .obj [("type", .str "hysteria2"), ("tag", .str n.nodeName),
        ("server", .str (n.server.getD "")),
        ("server_port", .num ((n.port.getD 0) % 65536)),
        ("password", .str (n.password.getD "")),
        ("up_mbps", .num 40), ("down_mbps", .num 350),
        ("tls", tlsJson n.sni true)]

/-- The `AnyTls` outbound; `insecure` comes from `skip-cert-verify`
(default `false`). -/
def anytlsOutbound (n : YamlNode) : Json :=
  .obj [("type", .str "anytls"), ("tag", .str n.nodeName),
        ("server", .str (n.server.getD "")),
        ("server_port", .num ((n.port.getD 0) % 65536)),
        ("password", .str (n.password.getD "")),
        ("tls", tlsJson n.sni (n.skipCertVerify.getD false))]

/-- The `Shadowsocks` outbound; `method` from `cipher` (default `""`). -/
def ssOutbound (n : YamlNode) : Json :=
  .obj [("type", .str "shadowsocks"), ("tag", .str n.nodeName),
        ("server", .str (n.server.getD "")),
        ("server_port", .num ((n.port.getD 0) % 65536)),
        ("method", .str (n.cipher.getD "")),
        ("password", .str (n.password.getD ""))]

/-- One arm of the `match typ` in `fetch_sub`: a supported kind yields the
node's name plus its translated outbound; anything else is skipped
(`_ => {}`). -/
def translateNode (n : YamlNode) : Option (String × Json) :=
  match n.typ.getD "" with
  | "hysteria2" => some (n.nodeName, hysteria2Outbound n)
  | "anytls" => some (n.nodeName, anytlsOutbound n)
  | "ss" => some (n.nodeName, ssOutbound n)
  | _ => none

def isSupportedKind (n : YamlNode) : Bool :=
  match n.typ.getD "" with
  | "hysteria2" => true
  | "anytls" => true
  | "ss" => true
  | _ => false

/-- The translation loop of `fetch_sub` over the parsed proxy list (the HTTP
fetch and YAML parse feeding it are external; their failures surface as the
`fetch_sub` error handled by `gen_config`). -/
def fetchTranslate : List YamlNode → List String × List Json
  | [] => ([], [])
  | n :: rest =>
    let tail := fetchTranslate rest
    match translateNode n with
    | some (nm, ob) => (nm :: tail.1, ob :: tail.2)
    | none => tail

/-- Is `needle` a leading block of `hay`? -/
def startsList : List Char → List Char → Bool
  | [], _ => true
  | _ :: _, [] => false
  | a :: as, b :: bs => a = b && startsList as bs

/-- Substring test on character lists (spec-side helper for the claimed
region-marker filter). -/
def subList (needle : List Char) : List Char → Bool
  | [] => needle.isEmpty
  | b :: bs => startsList needle (b :: bs) || subList needle bs

def containsMarker (markers : List String) (s : String) : Bool :=
  markers.any (fun m => subList m.toList s.toList)

/-- Claim C7 as stated: there is a configured set of (non-empty) region
markers such that `fetch_sub` retains exactly the supported proxies whose
name contains one of them. -/
def fetchFilterClaim : Prop :=
  ∃ markers : List String, markers ≠ [] ∧ (∀ m ∈ markers, m ≠ "") ∧
    ∀ nodes : List YamlNode,
      (fetchTranslate nodes).1 =
        (nodes.filter
          (fun n => isSupportedKind n && containsMarker markers n.nodeName)).map
          YamlNode.nodeName

/-! ## Config synthesis (`gen_config`, `get_config_template`) -/

/-- The persisted `config.yaml` contents (`Config` in the source). -/
structure Config where
  port : Option Nat
  subs : List String
  nodes : List String
deriving DecidableEq

/-- One entry of the shared `SUB_STATUS` map. -/
structure SubStatus where
  url : String
  success : Bool
  nodeCount : Nat
  error : Option String
deriving DecidableEq

abbrev SubStatusMap := List (String × SubStatus)

def mapInsert (m : SubStatusMap) (k : String) (v : SubStatus) : SubStatusMap :=
  (k, v) :: m.filter (fun p => p.1 ≠ k)

/-- External collaborators of `gen_config`: `serde_json::from_str` for the
manual node strings, and the outcome of `fetch_sub` per subscription URL. -/
structure GenEnv where
  parseNode : String → Option Json
  fetchRes : String → Except String (List String × List Json)

/-- `my_outbounds`: manual node strings that parse as JSON. -/
def manualOutbounds (env : GenEnv) (cfg : Config) : List Json :=
  cfg.nodes.filterMap env.parseNode

/-- `my_names`: the `tag` string of every parsed manual outbound. -/
def manualTags (env : GenEnv) (cfg : Config) : List String :=
  (manualOutbounds env cfg).filterMap (fun o => (o.getField "tag").bind Json.asStr)

/-- `final_node_names` as accumulated over the subscription loop. -/
def fetchedNames (env : GenEnv) : List String → List String
  | [] => []
  | s :: rest =>
    (match env.fetchRes s with
     | .ok pr => pr.1
     | .error _ => []) ++ fetchedNames env rest

/-- `final_outbounds` as accumulated over the subscription loop. -/
def fetchedOutbounds (env : GenEnv) : List String → List Json
  | [] => []
  | s :: rest =>
    (match env.fetchRes s with
     | .ok pr => pr.2
     | .error _ => []) ++ fetchedOutbounds env rest

/-- The `for sub in &config.subs` loop: fetch, extend the running name and
outbound lists, and record a `SubStatus` for the URL whatever the outcome. -/
def fetchLoop (env : GenEnv) : List String → SubStatusMap →
    List String × List Json × SubStatusMap
  | [], st => ([], [], st)
  | sub :: rest, st =>
    match env.fetchRes sub with
    | .ok pr =>
      let count := pr.1.length
      let st1 := mapInsert st sub
        ⟨sub, decide (0 < count), count,
         if count = 0 then some "No nodes found" else none⟩
      let tail := fetchLoop env rest st1
      (pr.1 ++ tail.1, pr.2 ++ tail.2.1, tail.2.2)
    | .error e =>
      let st1 := mapInsert st sub ⟨sub, false, 0, some e⟩
      fetchLoop env rest st1

/-- `get_config_template()` verbatim. -/
def getConfigTemplate : Json :=
  .obj [
    ("log", .obj [("disabled", .bool false), ("timestamp", .bool true),
                  ("level", .str "info")]),
    ("experimental", .obj [("clash_api", .obj [
        ("external_controller", .str "0.0.0.0:6262"),
        ("access_control_allow_origin", .arr [.str "*"])])]),
    ("dns", .obj [
      ("final", .str "googledns"),
      ("strategy", .str "ipv4_only"),
      ("disable_cache", .bool false),
      ("independent_cache", .bool true),
      ("servers", .arr [
        .obj [("type", .str "udp"), ("tag", .str "googledns"),
              ("server", .str "8.8.8.8"), ("detour", .str "proxy")],
        .obj [("tag", .str "local"), ("type", .str "udp"),
              ("server", .str "223.5.5.5")]]),
      ("rules", .arr [
        .obj [("rule_set", .arr [.str "chinasite"]), ("action", .str "route"),
              ("server", .str "local")]])]),
    ("inbounds", .arr [
      .obj [("type", .str "tun"), ("tag", .str "tun-in"),
            ("interface_name", .str "sing-tun"),
            ("address", .arr [.str "172.18.0.1/30"]), ("mtu", .num 9000),
            ("auto_route", .bool true), ("strict_route", .bool true),
            ("auto_redirect", .bool true)]]),
    ("outbounds", .arr [
      .obj [("type", .str "selector"), ("tag", .str "proxy"),
            ("outbounds", .arr [])],
      .obj [("type", .str "direct"), ("tag", .str "direct")]]),
    ("route", .obj [
      ("final", .str "proxy"),
      ("auto_detect_interface", .bool true),
      ("default_domain_resolver", .str "local"),
      ("rules", .arr [
        .obj [("action", .str "sniff")],
        .obj [("protocol", .str "dns"), ("action", .str "hijack-dns")],
        .obj [("ip_is_private", .bool true),
              ("rule_set", .arr [.str "chinaip", .str "chinasite"]),
              ("action", .str "route"), ("outbound", .str "direct")]]),
      ("rule_set", .arr [
        .obj [("type", .str "local"), ("tag", .str "chinasite"),
              ("format", .str "binary"), ("path", .str "./chinasite.srs")],
        .obj [("type", .str "local"), ("tag", .str "chinaip"),
              ("format", .str "binary"), ("path", .str "./chinaip.srs")]])])]

/-- The synthesized document: extend the selector group's member list with
`my_names ++ final_node_names`, then extend the top-level outbound array with
`my_outbounds ++ final_outbounds`. -/
def genDoc (myNames finalNames : List String) (myOutbounds finalOutbounds : List Json) :
    Json :=
  let withMembers := Json.mapField "outbounds"
    (Json.mapHead (Json.mapField "outbounds"
      (Json.appendArr ((myNames ++ finalNames).map Json.str))))
    getConfigTemplate
  Json.mapField "outbounds" (Json.appendArr (myOutbounds ++ finalOutbounds)) withMembers

/-- The member list of the selector proxy group inside a synthesized
document (`outbounds[0].outbounds`, keeping only string entries). -/
def selectorMembers (doc : Json) : List String :=
  match doc.getField "outbounds" with
  | some (.arr (g :: _)) =>
    match g.getField "outbounds" with
    | some (.arr xs) => xs.filterMap Json.asStr
    | _ => []
  | _ => []

def configJsonPath : String := "/tmp/miao-sing-box/config.json"

/-- `gen_config`: parse manual nodes, refresh the status map, fetch every
subscription, fail with the no-nodes error when the merged set is empty
(writing nothing), otherwise emit a single write of the serialized document
to `<home>/config.json`. -/
def genConfig (env : GenEnv) (cfg : Config) (st : SubStatusMap) :
    Except String Unit × SubStatusMap × List FsEvent :=
  let myOutbounds := manualOutbounds env cfg
  let myNames := manualTags env cfg
  let st0 := st.filter (fun p => cfg.subs.contains p.1)
  let res := fetchLoop env cfg.subs st0
  if myOutbounds.length + res.2.1.length = 0 then
    (.error "No nodes available: all subscriptions failed and no manual nodes configured",
     res.2.2, [])
  else
    let doc := genDoc myNames res.1 myOutbounds res.2.1
    (.ok (), res.2.2,
     [.write configJsonPath (toJsonString (sortKeys doc))])

/-- Shape required by claim C6's mechanism clause: one write to a temporary
path followed by a rename onto `config.json`. -/
def writesViaTempRename (es : List FsEvent) : Prop :=
  ∃ tmp c, tmp ≠ configJsonPath ∧ es = [.write tmp c, .rename tmp configJsonPath]

/-- Claim C6's consequence clause: no interruption point of the trace can
leave `config.json` holding anything but its old or its new full content. -/
def atomicNoTruncation (es : List FsEvent) : Prop :=
  ∀ fs fsMid, fsMid ∈ interruptedStates es fs →
    fsLookup fsMid configJsonPath = fsLookup fs configJsonPath ∨
    fsLookup fsMid configJsonPath = fsLookup (applyEvents es fs) configJsonPath

/-- Claim C6 as stated: every successful synthesis writes atomically, either
literally by temp-write-then-rename or by an equivalent mechanism. -/
def atomicWriteClaim : Prop :=
  ∀ (env : GenEnv) (cfg : Config) (st : SubStatusMap),
    (genConfig env cfg st).1 = .ok () →
    writesViaTempRename (genConfig env cfg st).2.2 ∨
    atomicNoTruncation (genConfig env cfg st).2.2

/-! ## Concrete instances used by witnesses and counterexamples -/

/-- A persisted config whose one manual node fails to parse and whose one
subscription fails to fetch. -/
def emptyMergeEnv : GenEnv :=
  { parseNode := fun _ => none
    fetchRes := fun _ => .error "connection timed out" }

def emptyMergeCfg : Config :=
  { port := none, subs := ["https://feed.example/sub"], nodes := ["not-json"] }

/-- One parsable manual node tagged `m1`, one subscription delivering a node
tagged `f1`. -/
def mixedEnv : GenEnv :=
  { parseNode := fun s =>
      if s = "manual-node-1" then
        some (.obj [("type", .str "hysteria2"), ("tag", .str "m1")])
      else none
    fetchRes := fun _ => .ok (["f1"], [.obj [("tag", .str "f1")]]) }

def mixedCfg : Config :=
  { port := none, subs := ["https://feed.example/sub"], nodes := ["manual-node-1"] }

/-- One parsable manual node and no subscriptions: `gen_config` succeeds and
writes. -/
def oneNodeEnv : GenEnv :=
  { parseNode := fun _ => some (.obj [("tag", .str "n1")])
    fetchRes := fun _ => .error "unused" }

def oneNodeCfg : Config :=
  { port := none, subs := [], nodes := ["manual-node-1"] }

def stoppedWorld : World := { procs := [], handle := none }

def runningWorld : World := { procs := [true], handle := some 0 }

/-- A start environment where everything succeeds. -/
def goodStartEnv : StartEnv :=
  { spawnOk := true, immediateExit := none, clientOk := true,
    probe := fun _ => true, stopEnv := ⟨true⟩ }

/-- A start environment whose three probe attempts all fail. -/
def probeFailStartEnv : StartEnv :=
  { spawnOk := true, immediateExit := none, clientOk := true,
    probe := fun _ => false, stopEnv := ⟨true⟩ }

def sampleRelease : GitHubRelease :=
  { tagName := "v9.9.9"
    assets := [{ name := "miao-rust-linux-amd64",
                 browserDownloadUrl := "https://dl.example/miao" }] }

/-- An upgrade run that reaches the verification step and fails there. -/
def verifyFailEnv : UpgradeEnv :=
  { clientOk := true, release := .ok sampleRelease, currentVersion := "0.0.1",
    assetName := some "miao-rust-linux-amd64",
    download := .ok "NEWBINARY", writeTempOk := true, chmodTempOk := true,
    verifyRuns := false, currentExe := .ok "/usr/bin/miao", stopEnv := ⟨true⟩,
    backupOk := true, removeOldOk := true, copyNewOk := true, chmodNewOk := true }

def verifyFailFs : Fs := [("/usr/bin/miao", "OLDBINARY")]

/-- A release whose tag is not a well-formed version. -/
def malformedTagRelease : GitHubRelease :=
  { tagName := "nightly-build", assets := [] }

def malformedTagEnv : UpgradeEnv :=
  { verifyFailEnv with release := .ok malformedTagRelease }

/-- The ss node with an empty name used against the region-filter claim. -/
def emptyNameNode : YamlNode :=
  { typ := some "ss", name := some "", server := some "s.example",
    port := some 443, password := some "pw", sni := none, cipher := none,
    skipCertVerify := none }

/-! ## Helper lemmas -/

theorem getD_concat (l : List Bool) (b d : Bool) :
    (l ++ [b]).getD l.length d = b := by
  induction l with
  | nil => rfl
  | cons a t ih => simp [ih]

theorem set_concat (l : List Bool) (b c : Bool) :
    (l ++ [b]).set l.length c = l ++ [c] := by
  induction l with
  | nil => rfl
  | cons a t ih => simp [ih]

theorem stopSing_handle (env : StopEnv) (w : World) :
    (stopSing env w).handle = none := by
  unfold stopSing
  rcases w.handle with _ | pid
  · rfl
  · dsimp only
    split <;> rfl

theorem stopSing_noop (env : StopEnv) (w : World) (h : w.handle = none) :
    stopSing env w = w := by
  cases w with
  | mk procs handle =>
    cases h
    rfl

theorem stopSing_idem (env env' : StopEnv) (w : World) :
    stopSing env (stopSing env' w) = stopSing env' w :=
  stopSing_noop env _ (stopSing_handle env' w)

theorem fsLookup_fsErase_self (fs : Fs) (p : String) :
    fsLookup (fsErase fs p) p = none := by
  induction fs with
  | nil => rfl
  | cons hd tl ih =>
    obtain ⟨q, c⟩ := hd
    by_cases hq : q = p
    · simp [fsErase, hq, ih]
    · simp [fsErase, fsLookup, hq, ih]

theorem fsLookup_fsErase_ne (fs : Fs) (p q : String) (h : q ≠ p) :
    fsLookup (fsErase fs p) q = fsLookup fs q := by
  induction fs with
  | nil => rfl
  | cons hd tl ih =>
    obtain ⟨r, c⟩ := hd
    by_cases hr : r = p
    · subst hr
      simp [fsErase, fsLookup, Ne.symm h, ih]
    · simp [fsErase, fsLookup, hr, ih]

theorem fsLookup_fsWrite_self (fs : Fs) (p c : String) :
    fsLookup (fsWrite fs p c) p = some c := by
  simp [fsWrite, fsLookup]

theorem fsLookup_fsWrite_ne (fs : Fs) (p c : String) (q : String) (h : q ≠ p) :
    fsLookup (fsWrite fs p c) q = fsLookup fs q := by
  simp [fsWrite, fsLookup, Ne.symm h, fsLookup_fsErase_ne fs p q h]

theorem fetchLoop_eq (env : GenEnv) (subs : List String) :
    ∀ st : SubStatusMap,
      (fetchLoop env subs st).1 = fetchedNames env subs ∧
      (fetchLoop env subs st).2.1 = fetchedOutbounds env subs := by
  induction subs with
  | nil => intro st; exact ⟨rfl, rfl⟩
  | cons s rest ih =>
    intro st
    unfold fetchLoop fetchedNames fetchedOutbounds
    cases h : env.fetchRes s with
    | ok pr => simp [h, (ih _).1, (ih _).2]
    | error e => simp [h, (ih _).1, (ih _).2]

theorem filterMap_asStr_map_str (l : List String) :
    List.filterMap Json.asStr (l.map Json.str) = l := by
  induction l with
  | nil => rfl
  | cons a t ih => simp [Json.asStr, ih]

theorem selectorMembers_genDoc (mN fN : List String) (mO fO : List Json) :
    selectorMembers (genDoc mN fN mO fO) = mN ++ fN := by
  show List.filterMap Json.asStr ((mN ++ fN).map Json.str) = mN ++ fN
  exact filterMap_asStr_map_str (mN ++ fN)

theorem nil_mem_listInits {α : Type} (l : List α) : [] ∈ listInits l := by
  cases l <;> simp [listInits]

theorem mem_listInits_append {α : Type} (l₁ l₂ : List α) :
    l₁ ∈ listInits (l₁ ++ l₂) := by
  induction l₁ with
  | nil => exact nil_mem_listInits l₂
  | cons a t ih =>
    simp only [List.cons_append, listInits, List.mem_cons, List.mem_map]
    exact Or.inr ⟨t, ih, rfl⟩

theorem toJsonString_obj (fields : List (String × Json)) :
    toJsonString (.obj fields) = "\x7b" ++ jsonObjBody fields ++ "\x7d" := by
  unfold toJsonString
  rfl

theorem two_le_length_toJsonString_obj (fields : List (String × Json)) :
    2 ≤ (toJsonString (.obj fields)).length := by
  rw [toJsonString_obj]
  simp only [String.length_append]
  have h1 : ("\x7b" : String).length = 1 := rfl
  have h2 : ("\x7d" : String).length = 1 := rfl
  omega

theorem translateNode_isSupportedKind (n : YamlNode) :
    (translateNode n).isSome = isSupportedKind n := by
  unfold translateNode isSupportedKind
  split <;> simp_all

theorem translateNode_name (n : YamlNode) (nm : String) (ob : Json)
    (h : translateNode n = some (nm, ob)) : nm = n.nodeName := by
  unfold translateNode at h
  split at h <;> simp_all

theorem eq_empty_of_toList_eq_nil (m : String) (h : m.toList = []) : m = "" := by
  cases m with
  | mk data =>
    have hd : data = [] := h
    subst hd
    rfl

theorem versionLt_iff (a b : Nat × Nat × Nat) :
    versionLt a b = true ↔
      (a.1 < b.1 ∨ (a.1 = b.1 ∧ (a.2.1 < b.2.1 ∨ (a.2.1 = b.2.1 ∧ a.2.2 < b.2.2)))) := by
  simp [versionLt, Bool.or_eq_true, Bool.and_eq_true, decide_eq_true_eq]

/-! ## Claim theorems -/

/-- Claim C1: when the manual node list parses to zero outbounds and the
subscriptions together yield zero outbounds, `gen_config` fails with the
no-nodes-available error, performs no file-system event, and therefore leaves
any pre-existing `config.json` byte-for-byte unchanged. -/
theorem c1_empty_merge_fails_no_write (env : GenEnv) (cfg : Config) (st : SubStatusMap)
    (hm : manualOutbounds env cfg = []) (hf : fetchedOutbounds env cfg.subs = []) :
    (genConfig env cfg st).1 =
      .error "No nodes available: all subscriptions failed and no manual nodes configured" ∧
    (genConfig env cfg st).2.2 = [] ∧
    ∀ fs : Fs, applyEvents (genConfig env cfg st).2.2 fs = fs := by
  have hlen := (fetchLoop_eq env cfg.subs (st.filter (fun p => cfg.subs.contains p.1))).2
  rw [hf] at hlen
  unfold genConfig
  dsimp only
  rw [hm, hlen]
  exact ⟨rfl, rfl, fun fs => rfl⟩

/-- Witness for C1 at a config with one unparsable manual node and one
failing subscription, over a disk that already holds a `config.json`. -/
theorem c1_empty_merge_fails_no_write_witness :
    (genConfig emptyMergeEnv emptyMergeCfg []).1 =
      .error "No nodes available: all subscriptions failed and no manual nodes configured" ∧
    applyEvents (genConfig emptyMergeEnv emptyMergeCfg []).2.2
      [(configJsonPath, "previous-config-bytes")] =
      [(configJsonPath, "previous-config-bytes")] :=
  ⟨(c1_empty_merge_fails_no_write emptyMergeEnv emptyMergeCfg [] rfl rfl).1,
   (c1_empty_merge_fails_no_write emptyMergeEnv emptyMergeCfg [] rfl rfl).2.2 _⟩

/-- Claim C2: with at least one manual or fetched node, `gen_config` succeeds
and the synthesized selector group's member list is exactly the manual tags
followed by the fetched tags; its length is the sum of the two counts. -/
theorem c2_selector_members_manual_first (env : GenEnv) (cfg : Config) (st : SubStatusMap)
    (h : manualOutbounds env cfg ≠ [] ∨ fetchedOutbounds env cfg.subs ≠ []) :
    (genConfig env cfg st).1 = .ok () ∧
    selectorMembers (genDoc (manualTags env cfg) (fetchedNames env cfg.subs)
        (manualOutbounds env cfg) (fetchedOutbounds env cfg.subs)) =
      manualTags env cfg ++ fetchedNames env cfg.subs ∧
    (selectorMembers (genDoc (manualTags env cfg) (fetchedNames env cfg.subs)
        (manualOutbounds env cfg) (fetchedOutbounds env cfg.subs))).length =
      (manualTags env cfg).length + (fetchedNames env cfg.subs).length := by
  have hlen := fetchLoop_eq env cfg.subs (st.filter (fun p => cfg.subs.contains p.1))
  have hcond : ¬(manualOutbounds env cfg).length +
      (fetchLoop env cfg.subs (st.filter (fun p => cfg.subs.contains p.1))).2.1.length = 0 := by
    rw [hlen.2]
    rcases h with h | h
    · have := List.length_pos.mpr h
      omega
    · have := List.length_pos.mpr h
      omega
  refine ⟨?_, ?_, ?_⟩
  · unfold genConfig
    dsimp only
    rw [if_neg hcond]
  · exact selectorMembers_genDoc _ _ _ _
  · rw [selectorMembers_genDoc]
    exact List.length_append _ _

/-- Witness for C2 at a config with one manual node `m1` and one subscription
delivering `f1`. -/
theorem c2_selector_members_manual_first_witness :
    (genConfig mixedEnv mixedCfg []).1 = .ok () ∧
    selectorMembers (genDoc (manualTags mixedEnv mixedCfg) (fetchedNames mixedEnv mixedCfg.subs)
        (manualOutbounds mixedEnv mixedCfg) (fetchedOutbounds mixedEnv mixedCfg.subs)) =
      manualTags mixedEnv mixedCfg ++ fetchedNames mixedEnv mixedCfg.subs ∧
    (selectorMembers (genDoc (manualTags mixedEnv mixedCfg) (fetchedNames mixedEnv mixedCfg.subs)
        (manualOutbounds mixedEnv mixedCfg) (fetchedOutbounds mixedEnv mixedCfg.subs))).length =
      (manualTags mixedEnv mixedCfg).length + (fetchedNames mixedEnv mixedCfg.subs).length :=
  c2_selector_members_manual_first mixedEnv mixedCfg []
    (Or.inl (by simp [manualOutbounds, mixedEnv, mixedCfg]))

/-- Claim C5: `stop_sing_internal` on an already-stopped supervisor is a
no-op; every invocation (whatever the signal outcome) ends `Stopped` with the
handle cleared; repeated stops are idempotent; and the stop endpoint always
reports success. -/
theorem c5_stop_idempotent (env env' : StopEnv) (w wAny : World) (h : w.handle = none) :
    stopSing env w = w ∧
    (stopSing env wAny).handle = none ∧
    stopSing env (stopSing env' wAny) = stopSing env' wAny ∧
    (stopService env w).1 = 200 :=
  ⟨stopSing_noop env w h, stopSing_handle env wAny, stopSing_idem env env' wAny, rfl⟩

/-- Witness for C5: a stopped world with differing signal-delivery outcomes,
and idempotence over a running world. -/
theorem c5_stop_idempotent_witness :
    stopSing ⟨true⟩ stoppedWorld = stoppedWorld ∧
    (stopSing ⟨true⟩ runningWorld).handle = none ∧
    stopSing ⟨true⟩ (stopSing ⟨false⟩ runningWorld) = stopSing ⟨false⟩ runningWorld ∧
    (stopService ⟨true⟩ stoppedWorld).1 = 200 :=
  c5_stop_idempotent ⟨true⟩ ⟨false⟩ stoppedWorld runningWorld rfl

/-- Counterexample to claim C8: with the engine already running, the start
endpoint answers 400, not the claimed 409. -/
theorem c8_counterexample_not_409 :
    (startService goodStartEnv runningWorld).1 = 400 ∧
    (startService goodStartEnv runningWorld).1 ≠ 409 :=
  ⟨rfl, by decide⟩

/-- Claim C8 as amended: a start request while the stored handle is alive is
rejected with HTTP status 400 (the invalid/duplicate-request code), with the
supervisor state untouched. -/
theorem c8_amended_already_running_returns_400 (env : StartEnv) (w : World)
    (h : handleAlive w = true) :
    startService env w = (400, w) := by
  simp [startService, h]

/-- Witness for the amended C8 at a running world. -/
theorem c8_amended_already_running_returns_400_witness :
    startService goodStartEnv runningWorld = (400, runningWorld) :=
  c8_amended_already_running_returns_400 goodStartEnv runningWorld rfl

/-- Claim C3: starting from a stopped supervisor, if the spawn and settle
succeed but all three connectivity-probe attempts fail, `start_sing_internal`
returns the connectivity-check-failed error, the handle is cleared (state
`Stopped`), and no child process is left alive. -/
theorem c3_probe_fail_teardown (env : StartEnv) (w : World)
    (hh : w.handle = none) (hc : aliveCount w = 0)
    (hs : env.spawnOk = true) (hcl : env.clientOk = true)
    (hie : env.immediateExit = none)
    (hp1 : env.probe 1 = false) (hp2 : env.probe 2 = false) (hp3 : env.probe 3 = false) :
    (startSing env w).1 = .error .connectivityCheckFailed ∧
    (startSing env w).2.handle = none ∧
    aliveCount (startSing env w).2 = 0 := by
  have hres : startSing env w =
      (.error .connectivityCheckFailed,
        stopSing env.stopEnv { procs := w.procs ++ [true], handle := some w.procs.length }) := by
    unfold startSing
    simp [handleAlive, hh, hs, hcl, hie, hp1, hp2, hp3]
  have hstop : stopSing env.stopEnv { procs := w.procs ++ [true], handle := some w.procs.length } =
      { procs := w.procs ++ [false], handle := none } := by
    unfold stopSing
    simp [getD_concat, set_concat]
  rw [hres, hstop]
  refine ⟨rfl, rfl, ?_⟩
  have : aliveCount { procs := w.procs ++ [false], handle := none } =
      w.procs.count true + [false].count true := by
    simp [aliveCount, List.count_append]
  rw [this]
  simp [aliveCount] at hc
  simp [hc]

/-- Witness for C3: all probes fail over the empty world. -/
theorem c3_probe_fail_teardown_witness :
    (startSing probeFailStartEnv stoppedWorld).1 = .error .connectivityCheckFailed ∧
    (startSing probeFailStartEnv stoppedWorld).2.handle = none ∧
    aliveCount (startSing probeFailStartEnv stoppedWorld).2 = 0 :=
  c3_probe_fail_teardown probeFailStartEnv stoppedWorld rfl rfl rfl rfl rfl rfl rfl rfl

/-- Claim C4: if `start_sing_internal` succeeds from a world with no alive
engine process, a second start without an intervening stop fails with the
already-running error, changes nothing, and exactly one engine process
exists. -/
theorem c4_double_start_already_running (env1 env2 : StartEnv) (w w1 : World)
    (h0 : aliveCount w = 0) (h1 : startSing env1 w = (.ok (), w1)) :
    startSing env2 w1 = (.error .alreadyRunning, w1) ∧ aliveCount w1 = 1 := by
  have hw1 : w1 = { procs := w.procs ++ [true], handle := some w.procs.length } := by
    unfold startSing at h1
    split at h1
    · simp at h1
    · split at h1
      · simp at h1
      · split at h1
        · simp at h1
        · split at h1
          · simp at h1
          · split at h1
            · simp at h1
              exact h1.symm
            · simp at h1
  subst hw1
  have halive : handleAlive { procs := w.procs ++ [true], handle := some w.procs.length } = true := by
    simp [handleAlive, getD_concat]
  constructor
  · unfold startSing
    rw [halive]
    simp
  · simp [aliveCount, List.count_append]
    simpa [aliveCount] using h0

/-- Witness for C4: a fully successful start from the empty world followed by
a second start attempt. -/
theorem c4_double_start_already_running_witness :
    startSing goodStartEnv { procs := [true], handle := some 0 } =
      (.error .alreadyRunning, { procs := [true], handle := some 0 }) ∧
    aliveCount { procs := [true], handle := some 0 } = 1 :=
  c4_double_start_already_running goodStartEnv goodStartEnv stoppedWorld
    { procs := [true], handle := some 0 } rfl rfl

/-- Claim C9: when the upgrade reaches the candidate-verification step and it
fails, the upgrade aborts with the verification error, the temporary
candidate is discarded, and every other path — in particular the current
executable and its `.bak` sibling, which do not exist yet — is byte-for-byte
untouched; the supervisor is untouched too. -/
theorem c9_verify_fail_frame (env : UpgradeEnv) (fs : Fs) (w : World)
    (rel : GitHubRelease) (an : String)
    (hclient : env.clientOk = true)
    (hrel : env.release = .ok rel)
    (hnewer : isNewerVersion ("v" ++ env.currentVersion) rel.tagName = true)
    (han : env.assetName = some an)
    (hasset : ∃ asset, rel.assets.find? (fun a => a.name = an) = some asset)
    (hdl : ∃ b, env.download = .ok b)
    (hwt : env.writeTempOk = true) (hct : env.chmodTempOk = true)
    (hv : env.verifyRuns = false) :
    (upgrade env fs w).1 = .failed "New binary verification failed" ∧
    (∀ p, p ≠ tempPath → fsLookup (upgrade env fs w).2.1 p = fsLookup fs p) ∧
    fsLookup (upgrade env fs w).2.1 tempPath = none ∧
    (upgrade env fs w).2.2 = w := by
  obtain ⟨asset, hfind⟩ := hasset
  obtain ⟨b, hb⟩ := hdl
  have hres : upgrade env fs w =
      (.failed "New binary verification failed", fsRemove (fsWrite fs tempPath b) tempPath, w) := by
    unfold upgrade
    rw [hclient, hrel]
    dsimp only
    rw [hnewer, han]
    dsimp only
    rw [hfind, hb, hwt, hct, hv]
    rfl
  rw [hres]
  refine ⟨rfl, ?_, ?_, rfl⟩
  · intro p hp
    calc fsLookup (fsRemove (fsWrite fs tempPath b) tempPath) p
        = fsLookup (fsWrite fs tempPath b) p := fsLookup_fsErase_ne _ _ _ hp
      _ = fsLookup fs p := fsLookup_fsWrite_ne _ _ _ _ hp
  · exact fsLookup_fsErase_self _ _

/-- Witness for C9: a concrete failing verification over a disk holding only
the old executable. -/
theorem c9_verify_fail_frame_witness :
    (upgrade verifyFailEnv verifyFailFs stoppedWorld).1 =
      .failed "New binary verification failed" ∧
    fsLookup (upgrade verifyFailEnv verifyFailFs stoppedWorld).2.1 "/usr/bin/miao" =
      fsLookup verifyFailFs "/usr/bin/miao" ∧
    fsLookup (upgrade verifyFailEnv verifyFailFs stoppedWorld).2.1 "/usr/bin/miao.bak" =
      fsLookup verifyFailFs "/usr/bin/miao.bak" ∧
    fsLookup (upgrade verifyFailEnv verifyFailFs stoppedWorld).2.1 tempPath = none := by
  have h := c9_verify_fail_frame verifyFailEnv verifyFailFs stoppedWorld sampleRelease
    "miao-rust-linux-amd64" rfl rfl (by decide) rfl ⟨_, rfl⟩ ⟨"NEWBINARY", rfl⟩ rfl rfl rfl
  exact ⟨h.1, h.2.1 _ (by decide), h.2.1 _ (by decide), h.2.2.1⟩

/-- Claim C10: `is_newer_version` is true exactly when both strings parse
(optional `v` prefix, three dot-separated numeric components) and the latest
triple is lexicographically greater; a malformed side forces `false`, and a
malformed release tag makes `upgrade` a clean up-to-date no-op rather than
triggering a replacement. -/
theorem c10_is_newer_version_charact (current latest : String) :
    (isNewerVersion current latest = true ↔
      ∃ c1 c2 c3 l1 l2 l3, parseVersion current = some (c1, c2, c3) ∧
        parseVersion latest = some (l1, l2, l3) ∧
        (c1 < l1 ∨ (c1 = l1 ∧ (c2 < l2 ∨ (c2 = l2 ∧ c3 < l3))))) ∧
    ((parseVersion current = none ∨ parseVersion latest = none) →
      isNewerVersion current latest = false) ∧
    (∀ (env : UpgradeEnv) (fs : Fs) (w : World) (rel : GitHubRelease),
      env.clientOk = true → env.release = .ok rel → parseVersion rel.tagName = none →
      upgrade env fs w = (.upToDate, fs, w)) := by
  have hfalse : ∀ cur tag : String, parseVersion tag = none →
      isNewerVersion cur tag = false := by
    intro cur tag htag
    unfold isNewerVersion
    rw [htag]
    cases parseVersion cur <;> rfl
  refine ⟨?_, ?_, ?_⟩
  · unfold isNewerVersion
    cases hc : parseVersion current with
    | none =>
      cases hl : parseVersion latest with
      | none => simp
      | some l => simp
    | some c =>
      cases hl : parseVersion latest with
      | none => simp
      | some l =>
        obtain ⟨c1, c2, c3⟩ := c
        obtain ⟨l1, l2, l3⟩ := l
        dsimp only
        rw [versionLt_iff]
        constructor
        · intro hlt
          exact ⟨c1, c2, c3, l1, l2, l3, rfl, rfl, hlt⟩
        · rintro ⟨c1', c2', c3', l1', l2', l3', hcc, hll, hlt⟩
          have e1 := Option.some.inj hcc
          have e2 := Option.some.inj hll
          simp only [Prod.mk.injEq] at e1 e2
          obtain ⟨rfl, rfl, rfl⟩ := e1
          obtain ⟨rfl, rfl, rfl⟩ := e2
          exact hlt
  · intro h
    rcases h with h | h
    · unfold isNewerVersion
      rw [h]
    · exact hfalse current latest h
  · intro env fs w rel hcl hrel htag
    unfold upgrade
    rw [hcl, hrel]
    dsimp only
    rw [hfalse _ _ htag]
    rfl

/-- Witness for C10: a true comparison, a malformed-tag comparison forced to
false, and the resulting up-to-date upgrade no-op. -/
theorem c10_is_newer_version_charact_witness :
    isNewerVersion "v1.2.3" "v1.2.10" = true ∧
    isNewerVersion "v1.2.3" "nightly-build" = false ∧
    upgrade malformedTagEnv verifyFailFs stoppedWorld = (.upToDate, verifyFailFs, stoppedWorld) := by
  refine ⟨?_, ?_, ?_⟩
  · exact (c10_is_newer_version_charact "v1.2.3" "v1.2.10").1.mpr
      ⟨1, 2, 3, 1, 2, 10, by decide, by decide, by decide⟩
  · exact (c10_is_newer_version_charact "v1.2.3" "nightly-build").2.1 (Or.inr (by decide))
  · exact (c10_is_newer_version_charact "x" "y").2.2 malformedTagEnv verifyFailFs stoppedWorld
      malformedTagRelease rfl rfl (by decide)

/-- Claim C6 as amended: when the merged outbound set is non-empty,
`gen_config` performs exactly one file-system event — a single direct write
of the serialized document to `config.json` itself.  No temporary path and no
rename are involved, so the write is not atomic. -/
theorem c6_amended_single_direct_write (env : GenEnv) (cfg : Config) (st : SubStatusMap)
    (h : manualOutbounds env cfg ≠ [] ∨ fetchedOutbounds env cfg.subs ≠ []) :
    (genConfig env cfg st).2.2 =
      [.write configJsonPath (toJsonString (sortKeys (genDoc (manualTags env cfg)
        (fetchedNames env cfg.subs) (manualOutbounds env cfg)
        (fetchedOutbounds env cfg.subs))))] := by
  have hlen := fetchLoop_eq env cfg.subs (st.filter (fun p => cfg.subs.contains p.1))
  have hcond : ¬((manualOutbounds env cfg).length +
      (fetchLoop env cfg.subs (st.filter (fun p => cfg.subs.contains p.1))).2.1.length = 0) := by
    rw [hlen.2]
    rcases h with h | h
    · have := List.length_pos.mpr h
      omega
    · have := List.length_pos.mpr h
      omega
  unfold genConfig
  dsimp only
  rw [if_neg hcond]
  dsimp only
  rw [hlen.1, hlen.2]

/-- Witness for the amended C6 at a config with a single manual node. -/
theorem c6_amended_single_direct_write_witness :
    (genConfig oneNodeEnv oneNodeCfg []).2.2 =
      [.write configJsonPath (toJsonString (sortKeys (genDoc (manualTags oneNodeEnv oneNodeCfg)
        (fetchedNames oneNodeEnv oneNodeCfg.subs) (manualOutbounds oneNodeEnv oneNodeCfg)
        (fetchedOutbounds oneNodeEnv oneNodeCfg.subs))))] :=
  c6_amended_single_direct_write oneNodeEnv oneNodeCfg []
    (Or.inl (by simp [manualOutbounds, oneNodeEnv, oneNodeCfg]))

/-- Counterexample to claim C6: a successful synthesis neither writes via a
temp-then-rename pair nor is atomic — killing the process mid-write can leave
`config.json` holding a strict prefix of the document (here a single brace),
which is neither the old contents (absent) nor the new full document. -/
theorem c6_counterexample_truncatable_write : ¬ atomicWriteClaim := by
  intro hclaim
  have hok : (genConfig oneNodeEnv oneNodeCfg []).1 = .ok () := rfl
  have h := hclaim oneNodeEnv oneNodeCfg [] hok
  have htrace : (genConfig oneNodeEnv oneNodeCfg []).2.2 =
      [.write configJsonPath (toJsonString (sortKeys (genDoc ["n1"] []
        [Json.obj [("tag", Json.str "n1")]] [])))] := rfl
  obtain ⟨flds, hflds⟩ :
      ∃ flds, sortKeys (genDoc ["n1"] [] [Json.obj [("tag", Json.str "n1")]] []) =
        Json.obj flds := ⟨_, rfl⟩
  rcases h with hshape | hatomic
  · obtain ⟨tmp, c, hne, heq⟩ := hshape
    rw [htrace] at heq
    exact absurd heq (by simp)
  · rw [htrace, hflds] at hatomic
    set S := toJsonString (Json.obj flds) with hS
    have hSlist : S.toList = "\x7b".toList ++ ((jsonObjBody flds).toList ++ "\x7d".toList) := by
      rw [hS, toJsonString_obj]
      show ("\x7b" ++ jsonObjBody flds ++ "\x7d").data = _
      rw [String.data_append, String.data_append, List.append_assoc]
      rfl
    have hmem : fsWrite [] configJsonPath (String.mk ("\x7b".toList)) ∈
        interruptedStates [FsEvent.write configJsonPath S] [] := by
      show fsWrite [] configJsonPath (String.mk ("\x7b".toList)) ∈
        midStates [] (FsEvent.write configJsonPath S) ++
          interruptedStates [] (applyEvent [] (FsEvent.write configJsonPath S))
      apply List.mem_append_left
      show fsWrite [] configJsonPath (String.mk ("\x7b".toList)) ∈
        ([] : Fs) :: (listInits S.toList).map
          (fun l => fsWrite [] configJsonPath (String.mk l))
      apply List.mem_cons_of_mem
      apply List.mem_map.mpr
      refine ⟨"\x7b".toList, ?_, rfl⟩
      rw [hSlist]
      exact mem_listInits_append _ _
    have hdisj := hatomic [] _ hmem
    have hmid : fsLookup (fsWrite [] configJsonPath (String.mk ("\x7b".toList)))
        configJsonPath = some (String.mk ("\x7b".toList)) :=
      fsLookup_fsWrite_self _ _ _
    have hnew : fsLookup (applyEvents [FsEvent.write configJsonPath S] [])
        configJsonPath = some S :=
      fsLookup_fsWrite_self [] configJsonPath S
    rw [hmid, hnew] at hdisj
    rcases hdisj with hdisj | hdisj
    · exact Option.noConfusion hdisj
    · have heq : (String.mk ("\x7b".toList)) = S := Option.some.inj hdisj
      have hlen1 : (String.mk ("\x7b".toList)).length = 1 := rfl
      have hlen2 : 2 ≤ S.length := by
        rw [hS]
        exact two_le_length_toJsonString_obj flds
      rw [heq] at hlen1
      omega

/-- Counterexample to claim C7: there is no configured set of (non-empty)
region markers for which `fetch_sub` retains exactly the name-matching
proxies — the translation loop keeps every supported proxy, including one
whose name contains no marker at all. -/
theorem c7_counterexample_no_region_filter : ¬ fetchFilterClaim := by
  rintro ⟨markers, hne, hcne, hall⟩
  have h := hall [emptyNameNode]
  have hcm : containsMarker markers "" = false := by
    unfold containsMarker
    rw [List.any_eq_false]
    intro m hm
    have hm' := hcne m hm
    cases hml : m.toList with
    | nil => exact absurd (eq_empty_of_toList_eq_nil m hml) hm'
    | cons a t =>
      intro hcon
      exact Bool.noConfusion hcon
  have hl : (fetchTranslate [emptyNameNode]).1 = [""] := rfl
  have hr : (([emptyNameNode].filter
      (fun n => isSupportedKind n && containsMarker markers n.nodeName)).map
        YamlNode.nodeName) = [] := by
    simp [List.filter, emptyNameNode, isSupportedKind, YamlNode.nodeName, hcm]
  rw [hl, hr] at h
  exact absurd h (by simp)

/-- Claim C7 as amended: `fetch_sub` applies no name-based inclusion filter
at all — it retains and translates every descriptor of a supported kind
(hysteria2, anytls, ss) whatever its name, and silently skips descriptors of
unsupported kinds instead of failing. -/
theorem c7_amended_translate_all_supported (nodes : List YamlNode) :
    fetchTranslate nodes =
      ((nodes.filter isSupportedKind).map YamlNode.nodeName,
       (nodes.filter isSupportedKind).filterMap
         (fun n => (translateNode n).map Prod.snd)) := by
  induction nodes with
  | nil => rfl
  | cons n rest ih =>
    cases htr : translateNode n with
    | none =>
      have hs : isSupportedKind n = false := by
        rw [← translateNode_isSupportedKind, htr]
        rfl
      simp [fetchTranslate, htr, hs, ih]
    | some pr =>
      obtain ⟨nm, ob⟩ := pr
      have hs : isSupportedKind n = true := by
        rw [← translateNode_isSupportedKind, htr]
        rfl
      have hn := translateNode_name n nm ob htr
      subst hn
      simp [fetchTranslate, htr, hs, ih]

end Miao
